import Mathlib

/-!
Verification of the World Mood Glow client against its specification.

The development shallowly embeds the pure computational content of the
repository in Lean:

* coordinates are modelled as rationals `ℚ` (JS numbers used as exact
  decimal coordinates); a value whose `Number(...)` coercion is `NaN`
  is modelled as `none : Option ℚ`;
* the JS remainder operator `%` (truncated division remainder) is
  `jsRem`, built from `jsTrunc`, truncation toward zero;
* `Math.round(x)` for the nonnegative percentage computation is modelled
  exactly over natural numbers by `pct`;
* JS strings are Lean `String`s; `String.prototype.includes` is
  `jsIncludes`, `trim` is `jsTrim`, `slice(0, 100)` is `jsSlice100`;
* the stable `Array.prototype.sort` is modelled by insertion sort with a
  non-strict comparison, which is stable and agrees with every stable
  sort for the comparators used by the code;
* asynchronous geolocation is modelled by passing the sequence of
  attempt outcomes explicitly.
-/

/-! ## Coordinate sanitizer (WorldMoodMap: clamp, normalizeLng, isValidCoordinate) -/

/-- Truncation toward zero of a rational, the rounding used by the JS `%`
operator on its quotient. -/
def jsTrunc (q : ℚ) : ℤ := if 0 ≤ q then ⌊q⌋ else ⌈q⌉

/-- The JS remainder `a % b`: `a - b * trunc(a / b)`. -/
def jsRem (a b : ℚ) : ℚ := a - b * (jsTrunc (a / b) : ℚ)

/-- `const clamp = (v, min, max) => Math.max(min, Math.min(max, v))`. -/
def clamp (v lo hi : ℚ) : ℚ := max lo (min hi v)

/-- `const normalizeLng = (lng) => ((lng % 360) + 540) % 360 - 180`. -/
def normalizeLng (lng : ℚ) : ℚ := jsRem (jsRem lng 360 + 540) 360 - 180

/-- The latitude clamp and longitude normalization applied to a numeric
pair, as performed inside `isValidCoordinate`. -/
def normalizePoint (lat lng : ℚ) : ℚ × ℚ := (clamp lat (-85) 85, normalizeLng lng)

/--
```
const isValidCoordinate = (lat, lng) => {
  const nlat = Number(lat); const nlng = Number(lng);
  if (Number.isNaN(nlat) || Number.isNaN(nlng)) return null;
  const clampedLat = clamp(nlat, -85, 85);
  const normLng = normalizeLng(nlng);
  if (clampedLat < -85 || clampedLat > 85 || normLng < -180 || normLng > 180) return null;
  return { lat: clampedLat, lng: normLng };
};
```
`none` plays the role of `null`; an input that coerces to `NaN` is the
`none` case of the `Option ℚ` argument. -/
def isValidCoordinate (lat lng : Option ℚ) : Option (ℚ × ℚ) :=
  match lat, lng with
  | some nlat, some nlng =>
    let clampedLat := clamp nlat (-85) 85
    let normLng := normalizeLng nlng
    if clampedLat < -85 ∨ 85 < clampedLat ∨ normLng < -180 ∨ 180 < normLng then none
    else some (clampedLat, normLng)
  | _, _ => none

theorem jsRem_bounds_of_nonneg {a b : ℚ} (hb : 0 < b) (ha : 0 ≤ a) :
    0 ≤ jsRem a b ∧ jsRem a b < b := by
  have hq : 0 ≤ a / b := div_nonneg ha hb.le
  have htr : jsTrunc (a / b) = ⌊a / b⌋ := if_pos hq
  have hbne : b ≠ 0 := ne_of_gt hb
  constructor
  · have h1 : (⌊a / b⌋ : ℚ) ≤ a / b := Int.floor_le _
    have h2 : b * (⌊a / b⌋ : ℚ) ≤ b * (a / b) := by
      exact mul_le_mul_of_nonneg_left h1 hb.le
    rw [mul_div_cancel₀ a hbne] at h2
    simp only [jsRem, htr]
    linarith
  · have h1 : a / b < (⌊a / b⌋ : ℚ) + 1 := Int.lt_floor_add_one _
    have h2 : b * (a / b) < b * ((⌊a / b⌋ : ℚ) + 1) := by
      exact mul_lt_mul_of_pos_left h1 hb
    rw [mul_div_cancel₀ a hbne] at h2
    simp only [jsRem, htr]
    nlinarith

theorem jsRem_bounds_of_neg {a b : ℚ} (hb : 0 < b) (ha : a < 0) :
    -b < jsRem a b ∧ jsRem a b ≤ 0 := by
  have hq : ¬ 0 ≤ a / b := by
    have : a / b < 0 := div_neg_of_neg_of_pos ha hb
    linarith
  have htr : jsTrunc (a / b) = ⌈a / b⌉ := if_neg hq
  have hbne : b ≠ 0 := ne_of_gt hb
  constructor
  · have h1 : (⌈a / b⌉ : ℚ) < a / b + 1 := Int.ceil_lt_add_one _
    have h2 : b * (⌈a / b⌉ : ℚ) < b * (a / b + 1) := mul_lt_mul_of_pos_left h1 hb
    have h3 : b * (a / b + 1) = a + b := by
      rw [mul_add, mul_div_cancel₀ a hbne, mul_one]
    rw [h3] at h2
    simp only [jsRem, htr]
    linarith
  · have h1 : a / b ≤ (⌈a / b⌉ : ℚ) := Int.le_ceil _
    have h2 : b * (a / b) ≤ b * (⌈a / b⌉ : ℚ) := mul_le_mul_of_nonneg_left h1 hb.le
    rw [mul_div_cancel₀ a hbne] at h2
    simp only [jsRem, htr]
    linarith

theorem jsRem_bounds {b : ℚ} (a : ℚ) (hb : 0 < b) : -b < jsRem a b ∧ jsRem a b < b := by
  rcases le_or_lt 0 a with ha | ha
  · obtain ⟨h1, h2⟩ := jsRem_bounds_of_nonneg hb ha
    exact ⟨by linarith, h2⟩
  · obtain ⟨h1, h2⟩ := jsRem_bounds_of_neg hb ha
    exact ⟨h1, by linarith⟩

/-- The normalized longitude always lands in `[-180, 180)`. -/
theorem normalizeLng_mem (lng : ℚ) : -180 ≤ normalizeLng lng ∧ normalizeLng lng < 180 := by
  have h360 : (0 : ℚ) < 360 := by norm_num
  obtain ⟨h1, h2⟩ := jsRem_bounds lng h360
  have hpos : 0 ≤ jsRem lng 360 + 540 := by linarith
  obtain ⟨h3, h4⟩ := jsRem_bounds_of_nonneg h360 hpos
  unfold normalizeLng
  constructor <;> linarith

/-- The clamped latitude always lands in `[-85, 85]`. -/
theorem clamp_mem (v : ℚ) : -85 ≤ clamp v (-85) 85 ∧ clamp v (-85) 85 ≤ 85 := by
  refine ⟨le_max_left _ _, max_le (by norm_num) (min_le_left _ _)⟩

/-- On numeric inputs the sanitizer never rejects: the rejection check after
clamping and normalization can never fire. -/
theorem isValidCoordinate_some (a b : ℚ) :
    isValidCoordinate (some a) (some b) = some (normalizePoint a b) := by
  obtain ⟨hc1, hc2⟩ := clamp_mem a
  obtain ⟨hn1, hn2⟩ := normalizeLng_mem b
  simp only [isValidCoordinate, normalizePoint]
  rw [if_neg]
  push_neg
  exact ⟨by linarith, by linarith, by linarith, by linarith⟩

theorem normalizeLng_ten : normalizeLng 10 = 10 := by
  norm_num [normalizeLng, jsRem, jsTrunc]

theorem normalizeLng_one_ninety : normalizeLng 190 = -170 := by
  norm_num [normalizeLng, jsRem, jsTrunc]

theorem clamp_ninety_five : clamp 95 (-85) 85 = 85 := by norm_num [clamp]

theorem clamp_ten : clamp 10 (-85) 85 = 10 := by norm_num [clamp]

/-- Claim C1: the sanitizer returns `null` iff an input is non-numeric or the
normalized result falls outside `[-85, 85] × [-180, 180)`; numeric input is
clamped in latitude and normalized in longitude by modular arithmetic, so
`(95, 10)` maps to `(85, 10)` and `(10, 190)` maps to `(10, -170)`. -/
theorem C1_isValidCoordinate_spec :
    (∀ lat lng : Option ℚ,
      (isValidCoordinate lat lng = none ↔
        lat = none ∨ lng = none ∨
          ∃ a b, lat = some a ∧ lng = some b ∧
            ¬(-85 ≤ (normalizePoint a b).1 ∧ (normalizePoint a b).1 ≤ 85 ∧
              -180 ≤ (normalizePoint a b).2 ∧ (normalizePoint a b).2 < 180)) ∧
      ∀ a b : ℚ, lat = some a → lng = some b →
        isValidCoordinate lat lng = some (clamp a (-85) 85, normalizeLng b)) ∧
    isValidCoordinate (some 95) (some 10) = some (85, 10) ∧
    isValidCoordinate (some 10) (some 190) = some (10, -170) := by
  refine ⟨fun lat lng => ⟨?_, ?_⟩, ?_, ?_⟩
  · constructor
    · intro hnone
      match lat, lng with
      | none, _ => exact Or.inl rfl
      | some a, none => exact Or.inr (Or.inl rfl)
      | some a, some b => rw [isValidCoordinate_some] at hnone; exact absurd hnone (by simp)
    · rintro (h | h | ⟨a, b, ha, hb, hbox⟩)
      · subst h; rfl
      · subst h; match lat with | none => rfl | some a => rfl
      · subst ha; subst hb
        exfalso
        obtain ⟨hc1, hc2⟩ := clamp_mem a
        obtain ⟨hn1, hn2⟩ := normalizeLng_mem b
        exact hbox ⟨hc1, hc2, hn1, hn2⟩
  · intro a b ha hb; subst ha; subst hb; exact isValidCoordinate_some a b
  · rw [isValidCoordinate_some, normalizePoint, clamp_ninety_five, normalizeLng_ten]
  · rw [isValidCoordinate_some, normalizePoint, clamp_ten, normalizeLng_one_ninety]

/-- Concrete instantiation of the conditional part of `C1_isValidCoordinate_spec`. -/
theorem C1_witness :
    isValidCoordinate (some 95) (some 10) = some (clamp 95 (-85) 85, normalizeLng 10) :=
  (C1_isValidCoordinate_spec.1 (some 95) (some 10)).2 95 10 rfl rfl

/-! ## loadMoods working set (WorldMoodMap.loadMoods, last 48h fetch then sanitize) -/

/-- A mood row as fetched from the `moods` table, before sanitizing.  The
database columns are nullable decimals, so the coordinates may be values
whose `Number(...)` coercion is `NaN` (modelled as `none`). -/
structure FetchedMood where
  id : String
  mood_name : String
  latitude : Option ℚ
  longitude : Option ℚ
deriving DecidableEq

/-- A mood row as kept in the rendered working set `moods` state. -/
structure CleanMood where
  id : String
  mood_name : String
  latitude : ℚ
  longitude : ℚ
deriving DecidableEq

/-- `{ ...m, latitude: coord.lat, longitude: coord.lng }`. -/
def cleanOf (m : FetchedMood) (c : ℚ × ℚ) : CleanMood :=
  { id := m.id, mood_name := m.mood_name, latitude := c.1, longitude := c.2 }

/--
```
const clean = (data ?? []).flatMap((m) => {
  const coord = isValidCoordinate(m.latitude, m.longitude);
  if (!coord) return [];
  return [{ ...m, latitude: coord.lat, longitude: coord.lng }];
});
```
-/
def loadMoodsClean (rows : List FetchedMood) : List CleanMood :=
  rows.flatMap fun m =>
    match isValidCoordinate m.latitude m.longitude with
    | none => []
    | some c => [cleanOf m c]

theorem isValidCoordinate_box {x y : Option ℚ} {c : ℚ × ℚ}
    (h : isValidCoordinate x y = some c) :
    -85 ≤ c.1 ∧ c.1 ≤ 85 ∧ -180 ≤ c.2 ∧ c.2 < 180 := by
  match x, y with
  | none, _ => exact absurd h (by simp [isValidCoordinate])
  | some a, none => exact absurd h (by simp [isValidCoordinate])
  | some a, some b =>
    rw [isValidCoordinate_some] at h
    obtain rfl : normalizePoint a b = c := Option.some.inj h
    obtain ⟨h1, h2⟩ := clamp_mem a
    obtain ⟨h3, h4⟩ := normalizeLng_mem b
    exact ⟨h1, h2, h3, h4⟩

/-- Claim C2 counterexample: a fetched record with numeric out-of-range
latitude 95 is NOT discarded by `loadMoods`; it is clamped to 85 and kept in
the rendered working set. -/
theorem C2_counterexample :
    loadMoodsClean [{ id := "m1", mood_name := "Happy", latitude := some 95, longitude := some 10 }] =
      [{ id := "m1", mood_name := "Happy", latitude := 85, longitude := 10 }] ∧
    ¬ ((95 : ℚ) ≤ 85) := by
  constructor
  · simp only [loadMoodsClean, List.flatMap_cons, List.flatMap_nil, isValidCoordinate_some,
      normalizePoint, clamp_ninety_five, normalizeLng_ten, List.append_nil]
    rfl
  · norm_num

/-- Claim C2 (amended): every record kept in the rendered working set
satisfies `-85 ≤ lat ≤ 85` and `-180 ≤ lng < 180`; a fetched record with a
non-numeric coordinate is discarded, but a record with numeric out-of-range
coordinates is clamped (latitude) or wrapped (longitude) into range and
kept, not discarded. -/
theorem C2_loadMoods_invariant (rows : List FetchedMood) :
    (∀ m ∈ loadMoodsClean rows,
        -85 ≤ m.latitude ∧ m.latitude ≤ 85 ∧ -180 ≤ m.longitude ∧ m.longitude < 180) ∧
    (∀ r ∈ rows, ∀ a b : ℚ, r.latitude = some a → r.longitude = some b →
        cleanOf r (normalizePoint a b) ∈ loadMoodsClean rows) ∧
    (∀ r : FetchedMood, r.latitude = none ∨ r.longitude = none → loadMoodsClean [r] = []) := by
  refine ⟨?_, ?_, ?_⟩
  · intro m hm
    rw [loadMoodsClean, List.mem_flatMap] at hm
    obtain ⟨r, _, hmr⟩ := hm
    match hc : isValidCoordinate r.latitude r.longitude with
    | none => rw [hc] at hmr; exact absurd hmr (List.not_mem_nil m)
    | some c =>
      rw [hc] at hmr
      obtain rfl : cleanOf r c = m := (List.mem_singleton.mp hmr).symm
      exact isValidCoordinate_box hc
  · intro r hr a b ha hb
    rw [loadMoodsClean, List.mem_flatMap]
    refine ⟨r, hr, ?_⟩
    rw [ha, hb, isValidCoordinate_some]
    exact List.mem_singleton.mpr rfl
  · intro r hr
    rcases hr with h | h <;> simp [loadMoodsClean, isValidCoordinate, h]

/-- Concrete instantiation of `C2_loadMoods_invariant` at a one-row table. -/
theorem C2_witness :
    cleanOf { id := "m1", mood_name := "Happy", latitude := some 95, longitude := some 10 }
        (normalizePoint 95 10) ∈
      loadMoodsClean [{ id := "m1", mood_name := "Happy", latitude := some 95, longitude := some 10 }] :=
  (C2_loadMoods_invariant _).2.1 _ (List.mem_singleton.mpr rfl) 95 10 rfl rfl

/-! ## Stable sorting

`Array.prototype.sort` with comparator `(a, b) => key(b) - key(a)` is a
stable descending sort by `key`; we model it with insertion sort on the
non-strict relation, which is stable in the same sense. -/

/-- `.sort((a, b) => key(b) - key(a))` (stable, descending by key). -/
def sortByDesc {α β : Type} [LinearOrder β] (key : α → β) (l : List α) : List α :=
  List.insertionSort (fun a b => key b ≤ key a) l

/-- `.sort((a, b) => key(a) - key(b))` (stable, ascending by key). -/
def sortByAsc {α β : Type} [LinearOrder β] (key : α → β) (l : List α) : List α :=
  List.insertionSort (fun a b => key a ≤ key b) l

theorem sortByDesc_perm {α β : Type} [LinearOrder β] (key : α → β) (l : List α) :
    List.Perm (sortByDesc key l) l :=
  List.perm_insertionSort _ l

theorem sortByAsc_perm {α β : Type} [LinearOrder β] (key : α → β) (l : List α) :
    List.Perm (sortByAsc key l) l :=
  List.perm_insertionSort _ l

theorem sortByDesc_pairwise {α β : Type} [LinearOrder β] (key : α → β) (l : List α) :
    (sortByDesc key l).Pairwise (fun a b => key b ≤ key a) := by
  haveI : IsTotal α (fun a b => key b ≤ key a) := ⟨fun a b => le_total (key b) (key a)⟩
  haveI : IsTrans α (fun a b => key b ≤ key a) := ⟨fun _ _ _ h1 h2 => le_trans h2 h1⟩
  exact List.sorted_insertionSort _ l

/-- The first element of a stable descending sort of `a :: l` is the first
element of `a :: l` realizing the maximal key: every element strictly before
it has a strictly smaller key and no element at all has a larger key. -/
theorem sortByDesc_head {α β : Type} [LinearOrder β] (key : α → β) :
    ∀ (l : List α) (a : α), ∃ h tl l1 l2,
      sortByDesc key (a :: l) = h :: tl ∧
      a :: l = l1 ++ h :: l2 ∧
      (∀ x ∈ l1, key x < key h) ∧
      (∀ x ∈ a :: l, key x ≤ key h)
  | [], a => by
    refine ⟨a, [], [], [], rfl, rfl, by simp, ?_⟩
    intro x hx
    rw [List.mem_singleton] at hx
    exact hx ▸ le_refl _
  | b :: t, a => by
    obtain ⟨h, tl, l1, l2, hsort, hdec, hlt, hmax⟩ := sortByDesc_head key t b
    have hstep : sortByDesc key (a :: b :: t) =
        List.orderedInsert (fun a b => key b ≤ key a) a (h :: tl) := by
      simp only [sortByDesc, List.insertionSort] at hsort ⊢
      rw [hsort]
    by_cases hc : key h ≤ key a
    · refine ⟨a, h :: tl, [], b :: t, ?_, rfl, by simp, ?_⟩
      · rw [hstep, List.orderedInsert, if_pos hc]
      · intro x hx
        rcases List.mem_cons.mp hx with rfl | hx
        · exact le_refl _
        · exact le_trans (hmax x hx) hc
    · have hlt' : key a < key h := not_le.mp hc
      refine ⟨h, List.orderedInsert (fun a b => key b ≤ key a) a tl, a :: l1, l2, ?_, ?_, ?_, ?_⟩
      · rw [hstep, List.orderedInsert, if_neg hc]
      · rw [List.cons_append, ← hdec]
      · intro x hx
        rcases List.mem_cons.mp hx with rfl | hx
        · exact hlt'
        · exact hlt x hx
      · intro x hx
        rcases List.mem_cons.mp hx with rfl | hx
        · exact hlt'.le
        · exact hmax x hx

/-! ## Counting and first-encounter key order

A JS object built by `reduce((acc, m) => { acc[k] = (acc[k] || 0) + 1 ...`
enumerates its string keys in insertion order, i.e. in order of first
encounter; `firstKeys` reproduces that order and `countKey` the counts. -/

/-- Remove every occurrence of `a` from a list. -/
def removeKey {α : Type} [DecidableEq α] (a : α) : List α → List α
  | [] => []
  | b :: l => if b = a then removeKey a l else b :: removeKey a l

/-- The distinct elements of `l` in order of first encounter. -/
def firstKeys {α : Type} [DecidableEq α] : List α → List α
  | [] => []
  | a :: l => a :: removeKey a (firstKeys l)

/-- Number of occurrences of `k` in `l`. -/
def countKey {α : Type} [DecidableEq α] (k : α) : List α → ℕ
  | [] => 0
  | a :: l => (if a = k then 1 else 0) + countKey k l

theorem countKey_le_length {α : Type} [DecidableEq α] (k : α) :
    ∀ l : List α, countKey k l ≤ l.length
  | [] => le_refl 0
  | a :: l => by
    simp only [countKey, List.length_cons]
    have := countKey_le_length k l
    split <;> omega

theorem countKey_eq_zero_of_not_mem {α : Type} [DecidableEq α] {k : α} :
    ∀ {l : List α}, k ∉ l → countKey k l = 0
  | [], _ => rfl
  | a :: l, hk => by
    have h1 : a ≠ k := fun h => hk (h ▸ List.mem_cons_self a l)
    have h2 : k ∉ l := fun h => hk (List.mem_cons_of_mem a h)
    simp only [countKey, if_neg h1, countKey_eq_zero_of_not_mem h2]

theorem countKey_pos_of_mem {α : Type} [DecidableEq α] {k : α} :
    ∀ {l : List α}, k ∈ l → 0 < countKey k l
  | a :: l, hk => by
    rcases List.mem_cons.mp hk with rfl | hk
    · simp [countKey]
    · have := countKey_pos_of_mem hk
      simp only [countKey]
      omega

theorem mem_removeKey {α : Type} [DecidableEq α] {a b : α} :
    ∀ {l : List α}, b ∈ removeKey a l ↔ b ∈ l ∧ b ≠ a
  | [] => by simp [removeKey]
  | c :: l => by
    by_cases hca : c = a
    · subst hca
      rw [removeKey, if_pos rfl]
      rw [@mem_removeKey _ _ c b l]
      constructor
      · rintro ⟨h1, h2⟩; exact ⟨List.mem_cons_of_mem c h1, h2⟩
      · rintro ⟨h1, h2⟩
        rcases List.mem_cons.mp h1 with rfl | h1
        · exact absurd rfl h2
        · exact ⟨h1, h2⟩
    · rw [removeKey, if_neg hca]
      rw [List.mem_cons, List.mem_cons, @mem_removeKey _ _ a b l]
      constructor
      · rintro (rfl | ⟨h1, h2⟩)
        · exact ⟨Or.inl rfl, hca⟩
        · exact ⟨Or.inr h1, h2⟩
      · rintro ⟨rfl | h1, h2⟩
        · exact Or.inl rfl
        · exact Or.inr ⟨h1, h2⟩

theorem removeKey_eq_self {α : Type} [DecidableEq α] {a : α} :
    ∀ {l : List α}, a ∉ l → removeKey a l = l
  | [], _ => rfl
  | b :: l, ha => by
    have h1 : b ≠ a := fun h => ha (h ▸ List.mem_cons_self b l)
    have h2 : a ∉ l := fun h => ha (List.mem_cons_of_mem b h)
    rw [removeKey, if_neg h1, removeKey_eq_self h2]

theorem nodup_removeKey {α : Type} [DecidableEq α] (a : α) :
    ∀ {l : List α}, l.Nodup → (removeKey a l).Nodup
  | [], _ => List.nodup_nil
  | b :: l, h => by
    obtain ⟨hb, hl⟩ := List.nodup_cons.mp h
    rw [removeKey]
    split
    · exact nodup_removeKey a hl
    · exact List.nodup_cons.mpr ⟨fun hm => hb (mem_removeKey.mp hm).1, nodup_removeKey a hl⟩

theorem mem_firstKeys {α : Type} [DecidableEq α] {a : α} :
    ∀ {l : List α}, a ∈ firstKeys l ↔ a ∈ l
  | [] => Iff.rfl
  | b :: t => by
    rw [firstKeys, List.mem_cons, List.mem_cons, mem_removeKey, @mem_firstKeys _ _ a t]
    by_cases hab : a = b
    · simp [hab]
    · simp [hab]

theorem nodup_firstKeys {α : Type} [DecidableEq α] :
    ∀ l : List α, (firstKeys l).Nodup
  | [] => List.nodup_nil
  | a :: t =>
    List.nodup_cons.mpr
      ⟨fun hm => (mem_removeKey.mp hm).2 rfl, nodup_removeKey a (nodup_firstKeys t)⟩

/-- Splitting a sum of `f` over a duplicate-free list at a member `a`. -/
theorem sum_map_split_at_mem {α : Type} [DecidableEq α] (f : α → ℕ) :
    ∀ (L : List α), L.Nodup → ∀ a ∈ L,
      (L.map f).sum = f a + ((removeKey a L).map f).sum
  | b :: t, hnd, a, ha => by
    obtain ⟨hb, hndt⟩ := List.nodup_cons.mp hnd
    rcases List.mem_cons.mp ha with rfl | hat
    · rw [removeKey, if_pos rfl, removeKey_eq_self hb, List.map_cons, List.sum_cons]
    · have hba : b ≠ a := fun h => hb (h ▸ hat)
      have ih := sum_map_split_at_mem f t hndt a hat
      rw [removeKey, if_neg hba, List.map_cons, List.sum_cons, List.map_cons, List.sum_cons, ih]
      omega

theorem map_countKey_removeKey {α : Type} [DecidableEq α] (a : α) (t : List α) :
    ∀ L : List α, (removeKey a L).map (fun k => countKey k (a :: t)) =
      (removeKey a L).map (fun k => countKey k t)
  | [] => rfl
  | b :: L => by
    rw [removeKey]
    split
    · exact map_countKey_removeKey a t L
    · rename_i hba
      rw [List.map_cons, List.map_cons, map_countKey_removeKey a t L]
      have : countKey b (a :: t) = countKey b t := by
        rw [countKey, if_neg (fun h => hba h.symm)]
        omega
      rw [this]

/-- The per-key counts over the first-encounter key list sum to the length
of the list: no record is dropped or double counted. -/
theorem sum_countKey_firstKeys {α : Type} [DecidableEq α] :
    ∀ l : List α, ((firstKeys l).map (fun k => countKey k l)).sum = l.length
  | [] => rfl
  | a :: t => by
    rw [firstKeys, List.map_cons, List.sum_cons, map_countKey_removeKey a t (firstKeys t)]
    have hhead : countKey a (a :: t) = 1 + countKey a t := by
      rw [countKey, if_pos rfl]
    rw [hhead, List.length_cons]
    by_cases hat : a ∈ t
    · have hsplit := sum_map_split_at_mem (fun k => countKey k t) (firstKeys t)
        (nodup_firstKeys t) a (mem_firstKeys.mpr hat)
      simp only [] at hsplit
      have hsum := sum_countKey_firstKeys t
      omega
    · have h0 : countKey a t = 0 := countKey_eq_zero_of_not_mem hat
      have hrm : removeKey a (firstKeys t) = firstKeys t :=
        removeKey_eq_self (fun h => hat (mem_firstKeys.mp h))
      have hsum := sum_countKey_firstKeys t
      rw [hrm]
      omega

/-! ## Aggregation view (MoodDashboard.loadStats)

`loadStats` fetches the 48-hour window twice (mood distribution and hourly
trends); both windows contain the same records, modelled by one list.  A
record contributes its `mood_name`, `mood_color`, `mood_emoji`, and the
local hour of day `new Date(created_at).getHours()`, precomputed in the
`hour` field. -/

/-- A mood record of the 48-hour window, as consumed by `loadStats`. -/
structure MoodRow where
  mood_name : String
  mood_color : String
  mood_emoji : String
  hour : ℕ
deriving DecidableEq

/-- `Math.round((count / total) * 100)` for naturals, computed exactly:
`round(x) = ⌊x + 1/2⌋` and `⌊100 c / t + 1 / 2⌋ = (200 c + t) / (2 t)`
in natural division. -/
def pct (count total : ℕ) : ℕ := (200 * count + total) / (2 * total)

/-- One entry of the mood distribution panel. -/
structure MoodStat where
  mood_name : String
  mood_color : String
  mood_emoji : String
  count : ℕ
  percentage : ℕ
deriving DecidableEq

/--
```
const moodCounts = moodsToday?.reduce((acc, mood) => {
  acc[mood.mood_name] = (acc[mood.mood_name] || 0) + 1; return acc; }, {}) || {};
const total = moodsToday?.length || 0;
const stats = Object.entries(moodCounts).map(([name, count]) => {
  const moodData = moodsToday?.find(m => m.mood_name === name);
  return { mood_name: name, mood_color: moodData?.mood_color || "happy",
    mood_emoji: moodData?.mood_emoji || "😊", count,
    percentage: total > 0 ? Math.round((count / total) * 100) : 0,
  }; }).sort((a, b) => b.count - a.count);
```
-/
def moodStatEntry (l : List MoodRow) (name : String) : MoodStat :=
  { mood_name := name
    mood_color := ((l.find? fun m => decide (m.mood_name = name)).map
      (fun m => m.mood_color)).getD "happy"
    mood_emoji := ((l.find? fun m => decide (m.mood_name = name)).map
      (fun m => m.mood_emoji)).getD "😊"
    count := countKey name (l.map (fun m => m.mood_name))
    percentage := if 0 < l.length then
      pct (countKey name (l.map (fun m => m.mood_name))) l.length else 0 }

def moodStatsOf (l : List MoodRow) : List MoodStat :=
  sortByDesc (fun s => s.count)
    ((firstKeys (l.map (fun m => m.mood_name))).map (moodStatEntry l))

/-- One entry of the 24-hour mood flow panel. -/
structure TimeStat where
  hour : ℕ
  total_moods : ℕ
  dominant_mood : String
  dominant_emoji : String
deriving DecidableEq

/-- `acc[hour].moods` for one hour bucket of the grouping `reduce`. -/
def hourBucket (l : List MoodRow) (h : ℕ) : List MoodRow :=
  l.filter fun r => decide (r.hour = h)

/-- `Object.entries(moodCounts)` for the per-bucket mood counts, in key
insertion order. -/
def moodCountsOf (names : List String) : List (String × ℕ) :=
  (firstKeys names).map fun k => (k, countKey k names)

/-- `Object.entries(moodCounts).sort((a, b) => b[1] - a[1])[0]`. -/
def dominantEntry (names : List String) : Option (String × ℕ) :=
  (sortByDesc (fun e => e.2) (moodCountsOf names)).head?

/--
```
const hourlyStats = hourlyData?.reduce((acc, mood) => {
  const hour = new Date(mood.created_at).getHours();
  if (!acc[hour]) { acc[hour] = { moods: [], count: 0 }; }
  acc[hour].moods.push(mood); acc[hour].count++; return acc; }, {}) || {};
const timeStatsArray = Object.entries(hourlyStats).map(([hour, data]) => {
  const moodCounts = data.moods.reduce(...);
  const dominantMood = Object.entries(moodCounts).sort((a, b) => b[1] - a[1])[0];
  const dominantEmoji = data.moods.find(m => m.mood_name === dominantMood?.[0])?.mood_emoji || "😊";
  return { hour: parseInt(hour), total_moods: data.count,
    dominant_mood: dominantMood?.[0] || "happy", dominant_emoji: dominantEmoji,
  }; }).sort((a, b) => a.hour - b.hour);
```
-/
def timeStatEntry (l : List MoodRow) (h : ℕ) : TimeStat :=
  let bucket := hourBucket l h
  let dom := ((dominantEntry (bucket.map (fun r => r.mood_name))).map
    (fun e => e.1)).getD "happy"
  { hour := h
    total_moods := bucket.length
    dominant_mood := dom
    dominant_emoji := ((bucket.find? fun m => decide (m.mood_name = dom)).map
      (fun m => m.mood_emoji)).getD "😊" }

def timeStatsOf (l : List MoodRow) : List TimeStat :=
  sortByAsc (fun s => s.hour)
    ((firstKeys (l.map (fun r => r.hour))).map (timeStatEntry l))

/-- The state set by one run of `loadStats`. -/
structure StatsResult where
  totalMoods : ℕ
  moodStats : List MoodStat
  timeStats : List TimeStat

/-- `loadStats` over the fetched 48-hour window. -/
def loadStats (l : List MoodRow) : StatsResult :=
  { totalMoods := l.length
    moodStats := moodStatsOf l
    timeStats := timeStatsOf l }

theorem mem_moodStatsOf {l : List MoodRow} {s : MoodStat} (hs : s ∈ moodStatsOf l) :
    s.mood_name ∈ l.map (fun m => m.mood_name) ∧
    s.count = countKey s.mood_name (l.map (fun m => m.mood_name)) ∧
    s.percentage = if 0 < l.length then pct s.count l.length else 0 := by
  rw [moodStatsOf] at hs
  rw [(sortByDesc_perm _ _).mem_iff] at hs
  obtain ⟨name, hname, rfl⟩ := List.mem_map.mp hs
  exact ⟨mem_firstKeys.mp hname, rfl, rfl⟩

theorem moodStatsOf_mem_of_name {l : List MoodRow} {name : String}
    (h : name ∈ l.map (fun m => m.mood_name)) :
    moodStatEntry l name ∈ moodStatsOf l := by
  rw [moodStatsOf, (sortByDesc_perm _ _).mem_iff]
  exact List.mem_map_of_mem _ (mem_firstKeys.mpr h)

theorem sum_count_moodStatsOf (l : List MoodRow) :
    ((moodStatsOf l).map (fun s => s.count)).sum = l.length := by
  rw [moodStatsOf]
  rw [((sortByDesc_perm (fun s : MoodStat => s.count) _).map (fun s => s.count)).sum_eq]
  rw [List.map_map]
  have : ((fun s : MoodStat => s.count) ∘ moodStatEntry l) =
      fun name => countKey name (l.map (fun m => m.mood_name)) := rfl
  rw [this, sum_countKey_firstKeys, List.length_map]

/-- Linearity of a list sum of `x ↦ c * f x + d`. -/
theorem sum_map_affine {α : Type} (f : α → ℕ) (c d : ℕ) :
    ∀ L : List α, (L.map (fun x => c * f x + d)).sum = c * (L.map f).sum + L.length * d
  | [] => by simp
  | a :: t => by
    simp only [List.map_cons, List.sum_cons, sum_map_affine f c d t, List.length_cons]
    ring

theorem sum_percentage_moodStatsOf {l : List MoodRow} (hl : l ≠ []) :
    2 * ((moodStatsOf l).map (fun s => s.percentage)).sum ≤ 200 + (moodStatsOf l).length := by
  have hn : 0 < l.length := List.length_pos.mpr hl
  set names := l.map (fun m => m.mood_name) with hnames
  set ks := firstKeys names with hks
  have hlen : (moodStatsOf l).length = ks.length := by
    rw [moodStatsOf, (sortByDesc_perm _ _).length_eq, List.length_map]
  have hmapsum : ((moodStatsOf l).map (fun s => s.percentage)).sum =
      (ks.map (fun name => pct (countKey name names) l.length)).sum := by
    rw [moodStatsOf, ((sortByDesc_perm (fun s : MoodStat => s.count) _).map
      (fun s => s.percentage)).sum_eq, List.map_map]
    congr 1
    apply List.map_congr_left
    intro k _
    simp only [Function.comp_apply, moodStatEntry, if_pos hn]
  have hpoint : ∀ k ∈ ks,
      pct (countKey k names) l.length * (2 * l.length) ≤
        200 * countKey k names + l.length := by
    intro k _
    exact Nat.div_mul_le_self _ _
  have hsum1 : (ks.map (fun k => pct (countKey k names) l.length * (2 * l.length))).sum ≤
      (ks.map (fun k => 200 * countKey k names + l.length)).sum :=
    List.sum_le_sum hpoint
  have hsum2 : (ks.map (fun k => pct (countKey k names) l.length * (2 * l.length))).sum =
      (ks.map (fun k => pct (countKey k names) l.length)).sum * (2 * l.length) := by
    induction ks with
    | nil => simp
    | cons a t ih => simp only [List.map_cons, List.sum_cons, ih, Nat.add_mul]
  have hsum3 : (ks.map (fun k => 200 * countKey k names + l.length)).sum =
      200 * (ks.map (fun k => countKey k names)).sum + ks.length * l.length :=
    sum_map_affine _ 200 l.length ks
  have hcnt : (ks.map (fun k => countKey k names)).sum = l.length := by
    rw [hks, hnames, sum_countKey_firstKeys, List.length_map]
  rw [hsum2, hsum3, hcnt] at hsum1
  rw [hmapsum, hlen]
  have hmul : (ks.map (fun k => pct (countKey k names) l.length)).sum * (2 * l.length) =
      (2 * (ks.map (fun k => pct (countKey k names) l.length)).sum) * l.length := by ring
  have hrhs : 200 * l.length + ks.length * l.length = (200 + ks.length) * l.length := by ring
  rw [hmul, hrhs] at hsum1
  exact Nat.le_of_mul_le_mul_right hsum1 hn

/-- Claim C3 counterexample: for the 7-record window with mood counts
2 (Sad), 2 (Angry), 3 (Happy) the rounded percentages are 29, 29 and 43,
which sum to 101 > 100, refuting that per-mood percentages always sum to
at most 100. -/
theorem C3_counterexample :
    ((loadStats
      [⟨"Sad", "blue", "s", 14⟩, ⟨"Sad", "blue", "s", 14⟩,
       ⟨"Angry", "red", "a", 14⟩, ⟨"Angry", "red", "a", 14⟩,
       ⟨"Happy", "yellow", "h", 14⟩, ⟨"Happy", "yellow", "h", 14⟩,
       ⟨"Happy", "yellow", "h", 14⟩]).moodStats.map (fun s => s.percentage)).sum = 101 ∧
    (loadStats
      [⟨"Sad", "blue", "s", 14⟩, ⟨"Sad", "blue", "s", 14⟩,
       ⟨"Angry", "red", "a", 14⟩, ⟨"Angry", "red", "a", 14⟩,
       ⟨"Happy", "yellow", "h", 14⟩, ⟨"Happy", "yellow", "h", 14⟩,
       ⟨"Happy", "yellow", "h", 14⟩]).totalMoods = 7 := by
  constructor <;> decide

/-- Claim C3 (amended): for every non-empty 48-hour window the per-mood
counts sum exactly to `totalMoods`, and the rounded per-mood percentages
sum to at most `100 + k/2` where `k` is the number of distinct moods
(stated as `2 * sum ≤ 200 + k`); because `Math.round` can round half of
the shares up, the sum can exceed 100 by up to `k/2`. -/
theorem C3_loadStats_sums (l : List MoodRow) (hl : l ≠ []) :
    (loadStats l).totalMoods = l.length ∧
    ((loadStats l).moodStats.map (fun s => s.count)).sum = l.length ∧
    2 * ((loadStats l).moodStats.map (fun s => s.percentage)).sum ≤
      200 + (loadStats l).moodStats.length :=
  ⟨rfl, sum_count_moodStatsOf l, sum_percentage_moodStatsOf hl⟩

/-- Concrete instantiation of `C3_loadStats_sums`. -/
theorem C3_witness :
    ([⟨"Happy", "yellow", "h", 14⟩] : List MoodRow) ≠ [] ∧
    ((loadStats [⟨"Happy", "yellow", "h", 14⟩]).totalMoods =
        ([⟨"Happy", "yellow", "h", 14⟩] : List MoodRow).length ∧
      ((loadStats [⟨"Happy", "yellow", "h", 14⟩]).moodStats.map (fun s => s.count)).sum =
        ([⟨"Happy", "yellow", "h", 14⟩] : List MoodRow).length ∧
      2 * ((loadStats [⟨"Happy", "yellow", "h", 14⟩]).moodStats.map
          (fun s => s.percentage)).sum ≤
        200 + (loadStats [⟨"Happy", "yellow", "h", 14⟩]).moodStats.length) :=
  ⟨by decide, C3_loadStats_sums _ (by decide)⟩

/-- Claim C4: a window of exactly 4 Happy records and 1 Sad record yields
Happy = 80%, Sad = 20%, totalMoods = 5, each percentage being
`Math.round(count / total * 100)`. -/
theorem C4_loadStats_happy_sad (l : List MoodRow)
    (hh : countKey "Happy" (l.map (fun m => m.mood_name)) = 4)
    (hs : countKey "Sad" (l.map (fun m => m.mood_name)) = 1)
    (hlen : l.length = 5) :
    (loadStats l).totalMoods = 5 ∧
    (∃ s ∈ (loadStats l).moodStats, s.mood_name = "Happy" ∧ s.count = 4 ∧ s.percentage = 80) ∧
    (∃ s ∈ (loadStats l).moodStats, s.mood_name = "Sad" ∧ s.count = 1 ∧ s.percentage = 20) ∧
    ∀ s ∈ (loadStats l).moodStats, s.percentage = pct s.count 5 := by
  have hpos : 0 < l.length := by omega
  have hmemH : "Happy" ∈ l.map (fun m => m.mood_name) := by
    by_contra h
    rw [countKey_eq_zero_of_not_mem h] at hh
    exact absurd hh (by decide)
  have hmemS : "Sad" ∈ l.map (fun m => m.mood_name) := by
    by_contra h
    rw [countKey_eq_zero_of_not_mem h] at hs
    exact absurd hs (by decide)
  refine ⟨hlen, ?_, ?_, ?_⟩
  · refine ⟨moodStatEntry l "Happy", moodStatsOf_mem_of_name hmemH, rfl, hh, ?_⟩
    show (if 0 < l.length then
      pct (countKey "Happy" (l.map (fun m => m.mood_name))) l.length else 0) = 80
    rw [if_pos hpos, hh, hlen]
    decide
  · refine ⟨moodStatEntry l "Sad", moodStatsOf_mem_of_name hmemS, rfl, hs, ?_⟩
    show (if 0 < l.length then
      pct (countKey "Sad" (l.map (fun m => m.mood_name))) l.length else 0) = 20
    rw [if_pos hpos, hs, hlen]
    decide
  · intro s hsm
    obtain ⟨-, -, hp⟩ := mem_moodStatsOf hsm
    rw [hp, if_pos hpos, hlen]

/-- Concrete instantiation of `C4_loadStats_happy_sad`. -/
theorem C4_witness :
    countKey "Happy"
        (([⟨"Happy", "y", "h", 1⟩, ⟨"Happy", "y", "h", 2⟩, ⟨"Happy", "y", "h", 3⟩,
           ⟨"Happy", "y", "h", 4⟩, ⟨"Sad", "b", "s", 5⟩] : List MoodRow).map
          (fun m => m.mood_name)) = 4 ∧
    countKey "Sad"
        (([⟨"Happy", "y", "h", 1⟩, ⟨"Happy", "y", "h", 2⟩, ⟨"Happy", "y", "h", 3⟩,
           ⟨"Happy", "y", "h", 4⟩, ⟨"Sad", "b", "s", 5⟩] : List MoodRow).map
          (fun m => m.mood_name)) = 1 ∧
    ((loadStats
        [⟨"Happy", "y", "h", 1⟩, ⟨"Happy", "y", "h", 2⟩, ⟨"Happy", "y", "h", 3⟩,
         ⟨"Happy", "y", "h", 4⟩, ⟨"Sad", "b", "s", 5⟩]).totalMoods = 5 ∧
      (∃ s ∈ (loadStats
        [⟨"Happy", "y", "h", 1⟩, ⟨"Happy", "y", "h", 2⟩, ⟨"Happy", "y", "h", 3⟩,
         ⟨"Happy", "y", "h", 4⟩, ⟨"Sad", "b", "s", 5⟩]).moodStats,
        s.mood_name = "Happy" ∧ s.count = 4 ∧ s.percentage = 80) ∧
      (∃ s ∈ (loadStats
        [⟨"Happy", "y", "h", 1⟩, ⟨"Happy", "y", "h", 2⟩, ⟨"Happy", "y", "h", 3⟩,
         ⟨"Happy", "y", "h", 4⟩, ⟨"Sad", "b", "s", 5⟩]).moodStats,
        s.mood_name = "Sad" ∧ s.count = 1 ∧ s.percentage = 20) ∧
      ∀ s ∈ (loadStats
        [⟨"Happy", "y", "h", 1⟩, ⟨"Happy", "y", "h", 2⟩, ⟨"Happy", "y", "h", 3⟩,
         ⟨"Happy", "y", "h", 4⟩, ⟨"Sad", "b", "s", 5⟩]).moodStats,
        s.percentage = pct s.count 5) :=
  ⟨by decide, by decide,
    C4_loadStats_happy_sad _ (by decide) (by decide) (by decide)⟩

/-- Characterization of `Object.entries(moodCounts).sort((a, b) => b[1] - a[1])[0]`:
for a non-empty name list it returns the pair of the first-encountered mood
among those of maximal count, together with that count. -/
theorem dominantEntry_spec {names : List String} (hne : names ≠ []) :
    ∃ d, dominantEntry names = some d ∧
      d.2 = countKey d.1 names ∧ d.1 ∈ names ∧
      (∀ nm, countKey nm names ≤ d.2) ∧
      ∃ ks1 ks2, firstKeys names = ks1 ++ d.1 :: ks2 ∧
        ∀ nm ∈ ks1, countKey nm names < d.2 := by
  obtain ⟨n0, rest, rfl⟩ := List.exists_cons_of_ne_nil hne
  have hfk : firstKeys (n0 :: rest) = n0 :: removeKey n0 (firstKeys rest) := rfl
  have hentries : moodCountsOf (n0 :: rest) =
      (fun k => (k, countKey k (n0 :: rest))) n0 ::
        (removeKey n0 (firstKeys rest)).map (fun k => (k, countKey k (n0 :: rest))) := by
    rw [moodCountsOf, hfk, List.map_cons]
  obtain ⟨hd, tl, l1, l2, hsort, hdec, hlt, hmax⟩ :=
    sortByDesc_head (fun e : String × ℕ => e.2)
      ((removeKey n0 (firstKeys rest)).map (fun k => (k, countKey k (n0 :: rest))))
      ((fun k => (k, countKey k (n0 :: rest))) n0)
  have hdom : dominantEntry (n0 :: rest) = some hd := by
    rw [dominantEntry, hentries, hsort]
    rfl
  rw [← hentries] at hdec hmax
  have hd_mem : hd ∈ moodCountsOf (n0 :: rest) := by
    rw [hdec]
    exact List.mem_append.mpr (Or.inr (List.mem_cons_self _ _))
  obtain ⟨k, hk_mem, hk_eq⟩ := List.mem_map.mp hd_mem
  have hd1 : hd.1 = k := by rw [← hk_eq]
  have hd2 : hd.2 = countKey hd.1 (n0 :: rest) := by rw [← hk_eq]
  refine ⟨hd, hdom, hd2, ?_, ?_, ?_⟩
  · rw [hd1]; exact mem_firstKeys.mp hk_mem
  · intro nm
    by_cases hnm : nm ∈ n0 :: rest
    · have : (nm, countKey nm (n0 :: rest)) ∈ moodCountsOf (n0 :: rest) :=
        List.mem_map_of_mem _ (mem_firstKeys.mpr hnm)
      exact hmax _ this
    · rw [countKey_eq_zero_of_not_mem hnm]
      exact Nat.zero_le _
  · rw [moodCountsOf] at hdec
    obtain ⟨p1, p2, hsplit, hmap1, hmap2⟩ :=
      List.map_eq_append_iff.mp hdec
    obtain ⟨k0, t0, hp2, hk0, -⟩ := List.map_eq_cons_iff.mp hmap2
    have hk0hd : hd.1 = k0 := by rw [← hk0]
    refine ⟨p1, t0, ?_, ?_⟩
    · rw [hsplit, hp2, hk0hd]
    · intro nm hnm
      have : (nm, countKey nm (n0 :: rest)) ∈ l1 := by
        rw [← hmap1]
        exact List.mem_map_of_mem _ hnm
      exact hlt _ this

/-- Claim C5: every hour with at least one record in the window gets a
TimeStats entry; each entry counts exactly the records of its hour of day,
and its dominant mood has maximal count among that hour's moods with ties
broken in favor of the mood first encountered in insertion order; in
particular records at hour 14 with moods Happy, Happy, Sad give the entry
`hour 14, total_moods 3, dominant_mood "Happy"`. -/
theorem C5_timeStats_spec :
    (∀ (l : List MoodRow) (hr : ℕ), hr ∈ l.map (fun r => r.hour) →
      timeStatEntry l hr ∈ (loadStats l).timeStats ∧ (timeStatEntry l hr).hour = hr) ∧
    (∀ (l : List MoodRow) (ts : TimeStat), ts ∈ (loadStats l).timeStats →
      ts.total_moods = (hourBucket l ts.hour).length ∧
      ts.dominant_mood ∈ (hourBucket l ts.hour).map (fun r => r.mood_name) ∧
      (∀ nm, countKey nm ((hourBucket l ts.hour).map (fun r => r.mood_name)) ≤
          countKey ts.dominant_mood ((hourBucket l ts.hour).map (fun r => r.mood_name))) ∧
      (∃ ks1 ks2,
          firstKeys ((hourBucket l ts.hour).map (fun r => r.mood_name)) =
            ks1 ++ ts.dominant_mood :: ks2 ∧
          ∀ nm ∈ ks1,
            countKey nm ((hourBucket l ts.hour).map (fun r => r.mood_name)) <
              countKey ts.dominant_mood ((hourBucket l ts.hour).map (fun r => r.mood_name)))) ∧
    (loadStats [⟨"Happy", "y", "h", 14⟩, ⟨"Happy", "y", "h", 14⟩,
        ⟨"Sad", "b", "s", 14⟩]).timeStats =
      [{ hour := 14, total_moods := 3, dominant_mood := "Happy", dominant_emoji := "h" }] := by
  refine ⟨?_, ?_, by decide⟩
  · intro l hr hhr
    constructor
    · show timeStatEntry l hr ∈ timeStatsOf l
      rw [timeStatsOf, (sortByAsc_perm _ _).mem_iff]
      exact List.mem_map_of_mem _ (mem_firstKeys.mpr hhr)
    · rfl
  · intro l ts hts
    replace hts : ts ∈ timeStatsOf l := hts
    rw [timeStatsOf, (sortByAsc_perm _ _).mem_iff] at hts
    obtain ⟨hr, hhr, rfl⟩ := List.mem_map.mp hts
    have hhour : (timeStatEntry l hr).hour = hr := rfl
    have htm : (timeStatEntry l hr).total_moods = (hourBucket l hr).length := rfl
    have hdm : (timeStatEntry l hr).dominant_mood =
        ((dominantEntry ((hourBucket l hr).map (fun r => r.mood_name))).map
          (fun e => e.1)).getD "happy" := rfl
    obtain ⟨r, hrl, hreq⟩ := List.mem_map.mp (mem_firstKeys.mp hhr)
    have hrbucket : r ∈ hourBucket l hr := by
      rw [hourBucket, List.mem_filter]
      exact ⟨hrl, by rw [decide_eq_true_eq]; exact hreq⟩
    have hnames : (hourBucket l hr).map (fun r => r.mood_name) ≠ [] :=
      List.ne_nil_of_mem (List.mem_map_of_mem _ hrbucket)
    obtain ⟨d, hdome, hd2, hdmem, hmax, ks1, ks2, hdecomp, hless⟩ :=
      dominantEntry_spec hnames
    have hdm1 : (timeStatEntry l hr).dominant_mood = d.1 := by
      rw [hdm, hdome]
      rfl
    rw [hhour, htm, hdm1]
    refine ⟨rfl, hdmem, ?_, ks1, ks2, ?_, ?_⟩
    · intro nm
      rw [← hd2]
      exact hmax nm
    · exact hdecomp
    · intro nm hnm
      rw [← hd2]
      exact hless nm hnm

/-- Concrete instantiation of the coverage part of `C5_timeStats_spec`. -/
theorem C5_witness :
    (14 ∈ ([⟨"Happy", "y", "h", 14⟩, ⟨"Happy", "y", "h", 14⟩,
        ⟨"Sad", "b", "s", 14⟩] : List MoodRow).map (fun r => r.hour)) ∧
    (timeStatEntry [⟨"Happy", "y", "h", 14⟩, ⟨"Happy", "y", "h", 14⟩,
          ⟨"Sad", "b", "s", 14⟩] 14 ∈
        (loadStats [⟨"Happy", "y", "h", 14⟩, ⟨"Happy", "y", "h", 14⟩,
          ⟨"Sad", "b", "s", 14⟩]).timeStats ∧
      (timeStatEntry [⟨"Happy", "y", "h", 14⟩, ⟨"Happy", "y", "h", 14⟩,
          ⟨"Sad", "b", "s", 14⟩] 14).hour = 14) :=
  ⟨by decide, C5_timeStats_spec.1 _ 14 (by decide)⟩

/-! ## JS string primitives -/

/-- Whether `sub` is a prefix of the second list (Boolean). -/
def beginsWith : List Char → List Char → Bool
  | [], _ => true
  | _ :: _, [] => false
  | a :: s, b :: t => a == b && beginsWith s t

/-- Whether `sub` occurs as a contiguous run (Boolean). -/
def hasInfix (sub : List Char) : List Char → Bool
  | [] => decide (sub = [])
  | c :: rest => beginsWith sub (c :: rest) || hasInfix sub rest

/-- `s.includes(sub)` (case sensitive, as in JS). -/
def jsIncludes (s sub : String) : Bool := hasInfix sub.data s.data

/-- `s.toLowerCase()` (restricted to the simple character mapping). -/
def jsToLower (s : String) : String := ⟨s.data.map Char.toLower⟩

/-- `s.trim()`: strip leading and trailing whitespace. -/
def jsTrim (s : List Char) : List Char :=
  (((s.dropWhile Char.isWhitespace).reverse).dropWhile Char.isWhitespace).reverse

/-! ## Note handling (MoodSelector)

`onChange={(e) => setNote(e.target.value.slice(0, 100))}` keeps the note
state at most 100 UTF-16 units long; `handleShareMood` persists
`note.trim() || null`. -/

/-- The note state after the change handler processes input `s`:
`e.target.value.slice(0, 100)`. -/
def noteStateAfterInput (s : String) : String := ⟨s.data.take 100⟩

/-- `note: note.trim() || null` in the insert payload. -/
def persistedNote (note : String) : Option String :=
  let t : String := ⟨jsTrim note.data⟩
  if t = "" then none else some t

theorem dropWhile_eq_self_of_all_false {α : Type} {p : α → Bool} :
    ∀ {l : List α}, (∀ c ∈ l, p c = false) → l.dropWhile p = l
  | [], _ => rfl
  | a :: t, h => by
    rw [List.dropWhile_cons, h a (List.mem_cons_self a t)]
    simp

theorem jsTrim_length_le (s : List Char) : (jsTrim s).length ≤ s.length := by
  rw [jsTrim, List.length_reverse]
  calc ((s.dropWhile Char.isWhitespace).reverse.dropWhile Char.isWhitespace).length
      ≤ (s.dropWhile Char.isWhitespace).reverse.length :=
        (List.dropWhile_sublist _).length_le
    _ = (s.dropWhile Char.isWhitespace).length := List.length_reverse _
    _ ≤ s.length := (List.dropWhile_sublist _).length_le

theorem jsTrim_eq_self {s : List Char} (h : ∀ c ∈ s, c.isWhitespace = false) :
    jsTrim s = s := by
  rw [jsTrim, dropWhile_eq_self_of_all_false h]
  rw [dropWhile_eq_self_of_all_false (fun c hc => h c (List.mem_reverse.mp hc))]
  exact List.reverse_reverse s

/-! ## Geolocation error mapping (simpleLocation.ts, LocationContext)

The browser Geolocation API reports errors with the numeric `code`
constants `PERMISSION_DENIED = 1`, `POSITION_UNAVAILABLE = 2`,
`TIMEOUT = 3`. -/

/--
```
let errorMessage = 'Failed to get location';
switch (error.code) {
  case error.PERMISSION_DENIED: errorMessage = 'Location permission denied'; break;
  case error.POSITION_UNAVAILABLE: errorMessage = 'Location information is unavailable'; break;
  case error.TIMEOUT: errorMessage = 'Location request timed out'; break;
}
```
(`getCurrentLocation` in `simpleLocation.ts`). -/
def getCurrentLocationErrorMessage (code : ℕ) : String :=
  if code = 1 then "Location permission denied"
  else if code = 2 then "Location information is unavailable"
  else if code = 3 then "Location request timed out"
  else "Failed to get location"

/-- The same switch in `LocationContext.requestLocation`, whose initial
value is `'Unable to retrieve your location'`. -/
def requestLocationErrorMessage (code : ℕ) : String :=
  if code = 1 then "Location permission denied"
  else if code = 2 then "Location information is unavailable"
  else if code = 3 then "Location request timed out"
  else "Unable to retrieve your location"

/-! ## Location acquisition wrapper (LocationTracker.getCurrentLocationCallback)

The asynchronous flow is modelled by the list of outcomes the environment
would produce for successive attempts: each element is either a fix or the
message of the rejected promise.  `retryCount` is the component state read
by the retry guard `error.message.includes('timeout') && retryCount < 3`;
each scheduled retry increments it. -/

/-- A geolocation fix (only the fields the claims mention). -/
structure LocationFix where
  latitude : ℚ
  longitude : ℚ
deriving DecidableEq

/-- Outcome of one acquisition attempt. -/
inductive GeoAttemptOutcome where
  | success (loc : LocationFix)
  | failure (msg : String)
deriving DecidableEq

/--
```
let errorMessage = error.message || 'Failed to get location';
if (error.message.includes('PERMISSION_DENIED') ||
    error.message.toLowerCase().includes('permission')) {
  errorMessage = 'Location permission denied. Please enable location access...';
  if (isIOS) { errorMessage += '\nOn iOS, go to Settings > ...'; }
} else if (error.message.includes('unavailable')) {
  errorMessage = 'Location information is unavailable. Please check your device location settings.';
} else if (error.message.includes('timeout')) {
  errorMessage = 'Location request timed out. Please try again.';
}
```
-/
def handleLocationErrorMessage (isIOS : Bool) (msg : String) : String :=
  if jsIncludes msg "PERMISSION_DENIED" || jsIncludes (jsToLower msg) "permission" then
    "Location permission denied. Please enable location access in your browser or device settings." ++
      (if isIOS then
        "\nOn iOS, go to Settings > Privacy > Location Services and enable it for this app."
      else "")
  else if jsIncludes msg "unavailable" then
    "Location information is unavailable. Please check your device location settings."
  else if jsIncludes msg "timeout" then
    "Location request timed out. Please try again."
  else if msg = "" then "Failed to get location" else msg

/-- The component state after a `getCurrentLocationCallback` run. -/
structure AcqResult where
  location : Option LocationFix
  error : Option String
  attempts : ℕ
  shownErrors : List String
deriving DecidableEq

/--
```
try {
  ...
  const currentLocation = await getCurrentLocation();
  handleLocationUpdate(currentLocation);         // sets location, clears error
} catch (error) {
  handleLocationError(error);                    // shows mapped message
  if (error.message.includes('timeout') && retryCount < 3) {
    setTimeout(() => { setRetryCount(prev => prev + 1); getCurrentLocationCallback(); }, 2000);
  }
}
```
`attempts` counts the attempts actually made, `shownErrors` the error
messages surfaced to the user over the run, `error` the error state after
the run (cleared by a successful update). -/
def getCurrentLocationCallback (isIOS : Bool) :
    List GeoAttemptOutcome → ℕ → AcqResult
  | [], _ => { location := none, error := none, attempts := 0, shownErrors := [] }
  | .success loc :: _, _ =>
    { location := some loc, error := none, attempts := 1, shownErrors := [] }
  | .failure msg :: rest, retryCount =>
    let shown := handleLocationErrorMessage isIOS msg
    if jsIncludes msg "timeout" && decide (retryCount < 3) then
      let t := getCurrentLocationCallback isIOS rest (retryCount + 1)
      { location := t.location, error := t.error, attempts := t.attempts + 1,
        shownErrors := shown :: t.shownErrors }
    else
      { location := none, error := some shown, attempts := 1, shownErrors := [shown] }

/-! ## Mood sharing flow (MoodSelector.getUserLocation, handleShareMood) -/

/-- What the geolocation callback delivers for the one-shot request in
`getUserLocation`: a position, or an error (any code). -/
inductive GeoOutcome where
  | position (lat lng : ℚ)
  | geoError
deriving DecidableEq

/--
```
const getUserLocation = () => new Promise((resolve, reject) => {
  if (!navigator.geolocation) { reject(new Error("Geolocation is not supported")); return; }
  navigator.geolocation.getCurrentPosition(
    (position) => { resolve({ latitude: position.coords.latitude,
                              longitude: position.coords.longitude }); },
    (error) => { resolve({ latitude: Math.random() * 180 - 90,
                           longitude: Math.random() * 360 - 180 }); },
    ...);
});
```
`r1`, `r2` are the two `Math.random()` samples, values in `[0, 1)`. -/
def getUserLocation (geolocationSupported : Bool) (out : GeoOutcome) (r1 r2 : ℚ) :
    Except String LocationFix :=
  if !geolocationSupported then .error "Geolocation is not supported"
  else match out with
    | .position lat lng => .ok { latitude := lat, longitude := lng }
    | .geoError => .ok { latitude := r1 * 180 - 90, longitude := r2 * 360 - 180 }

/-- One entry of `moodOptions`. -/
structure MoodOption where
  id : String
  emoji : String
  name : String
  color : String
deriving DecidableEq

/-- The row inserted into the `moods` table by `handleShareMood`. -/
structure MoodInsert where
  mood_emoji : String
  mood_color : String
  mood_name : String
  latitude : ℚ
  longitude : ℚ
  note : Option String
deriving DecidableEq

/--
```
const handleShareMood = async () => {
  if (!selectedMood) return;
  const location = await getUserLocation();
  await supabase.from("moods").insert({
    mood_emoji: selectedMood.emoji, mood_color: selectedMood.color,
    mood_name: selectedMood.name, latitude: location.latitude,
    longitude: location.longitude, note: note.trim() || null });
  toast({ title: "Mood shared! ✨", ... });
};
```
Returns the inserted row and the success toast title, or `none` when no
mood is selected or `getUserLocation` rejects (the caught branch, which
performs no insert). -/
def handleShareMood (selected : Option MoodOption) (noteState : String)
    (geoSupported : Bool) (out : GeoOutcome) (r1 r2 : ℚ) :
    Option (MoodInsert × String) :=
  match selected with
  | none => none
  | some mood =>
    match getUserLocation geoSupported out r1 r2 with
    | .error _ => none
    | .ok loc =>
      some ({ mood_emoji := mood.emoji, mood_color := mood.color,
              mood_name := mood.name, latitude := loc.latitude,
              longitude := loc.longitude, note := persistedNote noteState },
            "Mood shared! ✨")

theorem persistedNote_length_le (n : String) :
    ∀ t, persistedNote n = some t → t.length ≤ n.length := by
  intro t h
  rw [persistedNote] at h
  by_cases he : (⟨jsTrim n.data⟩ : String) = ""
  · rw [if_pos he] at h
    exact absurd h (by simp)
  · rw [if_neg he] at h
    obtain rfl : (⟨jsTrim n.data⟩ : String) = t := Option.some.inj h
    show (jsTrim n.data).length ≤ n.data.length
    exact jsTrim_length_le n.data

/-- Claim C6: the note state is sliced to 100 characters on input, the
persisted note is derived from that state by `trim() || null` so it is at
most 100 characters, the empty note persists as `null`, and a 150-character
whitespace-free note persists as exactly its first 100 characters. -/
theorem C6_note_truncation :
    (∀ s : String, (noteStateAfterInput s).length ≤ 100) ∧
    (∀ (mood : MoodOption) (s : String) (geo : Bool) (out : GeoOutcome) (r1 r2 : ℚ)
        (payload : MoodInsert) (toast : String),
      handleShareMood (some mood) (noteStateAfterInput s) geo out r1 r2 =
          some (payload, toast) →
      payload.note = persistedNote (noteStateAfterInput s) ∧
      (∀ t, payload.note = some t → t.length ≤ 100) ∧
      (s = "" → payload.note = none)) ∧
    (∀ s : String, s.length = 150 → (∀ c ∈ s.data, c.isWhitespace = false) →
      persistedNote (noteStateAfterInput s) = some ⟨s.data.take 100⟩ ∧
      (noteStateAfterInput s).length = 100) := by
  refine ⟨?_, ?_, ?_⟩
  · intro s
    show (s.data.take 100).length ≤ 100
    exact List.length_take_le 100 s.data
  · intro mood s geo out r1 r2 payload toast heq
    have hnote : payload.note = persistedNote (noteStateAfterInput s) := by
      cases hloc : getUserLocation geo out r1 r2 with
      | error e =>
        rw [handleShareMood, hloc] at heq
        exact absurd heq (by simp)
      | ok loc =>
        rw [handleShareMood, hloc] at heq
        obtain ⟨hp, -⟩ := Prod.mk.injEq .. ▸ Option.some.inj heq
        rw [← hp]
    refine ⟨hnote, ?_, ?_⟩
    · intro t ht
      rw [hnote] at ht
      calc t.length ≤ (noteStateAfterInput s).length :=
            persistedNote_length_le _ t ht
        _ ≤ 100 := List.length_take_le 100 s.data
    · rintro rfl
      rw [hnote]
      rfl
  · intro s hlen hws
    have htake : ∀ c ∈ s.data.take 100, c.isWhitespace = false :=
      fun c hc => hws c (List.take_subset 100 s.data hc)
    have htrim : jsTrim (s.data.take 100) = s.data.take 100 := jsTrim_eq_self htake
    have hlen' : (s.data.take 100).length = 100 := by
      rw [List.length_take]
      show min 100 s.data.length = 100
      have : s.data.length = 150 := hlen
      omega
    have hne : (⟨jsTrim (s.data.take 100)⟩ : String) ≠ "" := by
      rw [htrim]
      intro hcontra
      have : (s.data.take 100) = [] := congrArg String.data hcontra
      rw [this] at hlen'
      exact absurd hlen' (by decide)
    constructor
    · show persistedNote ⟨s.data.take 100⟩ = some ⟨s.data.take 100⟩
      rw [persistedNote]
      show (if (⟨jsTrim (s.data.take 100)⟩ : String) = "" then none
        else some (⟨jsTrim (s.data.take 100)⟩ : String)) = some ⟨s.data.take 100⟩
      rw [if_neg hne, htrim]
    · exact hlen'

set_option maxRecDepth 8000 in
/-- Concrete instantiation of the third part of `C6_note_truncation`:
a 150-character whitespace-free note is persisted as its first 100
characters. -/
theorem C6_witness :
    ((⟨List.replicate 150 'a'⟩ : String).length = 150 ∧
      (∀ c ∈ (⟨List.replicate 150 'a'⟩ : String).data, c.isWhitespace = false)) ∧
    (persistedNote (noteStateAfterInput ⟨List.replicate 150 'a'⟩) =
        some ⟨(⟨List.replicate 150 'a'⟩ : String).data.take 100⟩ ∧
      (noteStateAfterInput ⟨List.replicate 150 'a'⟩).length = 100) :=
  ⟨⟨by simp [String.length], fun c hc => by rw [List.eq_of_mem_replicate hc]; decide⟩,
    C6_note_truncation.2.2 ⟨List.replicate 150 'a'⟩ (by simp [String.length])
      (fun c hc => by rw [List.eq_of_mem_replicate hc]; decide)⟩

/-- Claim C7 counterexample: the web geolocation timeout rejects with the
message `Location request timed out`, which does NOT contain the substring
`timeout` checked by the retry guard, so the wrapper performs no retry at
all: with a successful second attempt available, the run stops after one
attempt with the error surfaced, instead of retrying once and succeeding. -/
theorem C7_counterexample :
    getCurrentLocationCallback false
        [.failure "Location request timed out", .success ⟨0, 0⟩] 0 =
      { location := none, error := some "Location request timed out",
        attempts := 1, shownErrors := ["Location request timed out"] } ∧
    jsIncludes "Location request timed out" "timeout" = false := by
  constructor <;> decide

/-- Claim C7 (amended): the wrapper auto-retries only when the rejection
message contains the substring `timeout` and fewer than 3 retries have been
scheduled.  The web timeout message `Location request timed out` does not
contain `timeout`, so a timed-out web request is not retried and its error
is surfaced exactly once.  For a message that does contain `timeout`, a
first-attempt failure followed by a success yields the successful fix with
the error state cleared and the transient message shown exactly once; the
retrying stops once `retryCount` reaches 3. -/
theorem C7_retry_behavior :
    (∀ (loc : LocationFix) (rest : List GeoAttemptOutcome) (rc : ℕ),
      getCurrentLocationCallback false (.success loc :: rest) rc =
        { location := some loc, error := none, attempts := 1, shownErrors := [] }) ∧
    (∀ (msg : String) (rest : List GeoAttemptOutcome) (rc : ℕ),
      jsIncludes msg "timeout" = false →
      getCurrentLocationCallback false (.failure msg :: rest) rc =
        { location := none, error := some (handleLocationErrorMessage false msg),
          attempts := 1, shownErrors := [handleLocationErrorMessage false msg] }) ∧
    (∀ (msg : String) (loc : LocationFix) (rest : List GeoAttemptOutcome) (rc : ℕ),
      jsIncludes msg "timeout" = true → rc < 3 →
      getCurrentLocationCallback false (.failure msg :: .success loc :: rest) rc =
        { location := some loc, error := none, attempts := 2,
          shownErrors := [handleLocationErrorMessage false msg] }) ∧
    (∀ (msg : String) (rest : List GeoAttemptOutcome),
      getCurrentLocationCallback false (.failure msg :: rest) 3 =
        { location := none, error := some (handleLocationErrorMessage false msg),
          attempts := 1, shownErrors := [handleLocationErrorMessage false msg] }) ∧
    jsIncludes "Location request timed out" "timeout" = false := by
  refine ⟨fun loc rest rc => rfl, ?_, ?_, ?_, by decide⟩
  · intro msg rest rc h
    rw [getCurrentLocationCallback]
    rw [if_neg (by rw [h, Bool.false_and]; exact Bool.false_ne_true)]
  · intro msg loc rest rc h hrc
    have hcond : (jsIncludes msg "timeout" && decide (rc < 3)) = true := by
      rw [Bool.and_eq_true]
      exact ⟨h, decide_eq_true hrc⟩
    rw [getCurrentLocationCallback]
    rw [if_pos hcond]
    rfl
  · intro msg rest
    rw [getCurrentLocationCallback]
    rw [if_neg (by simp)]

/-- Concrete instantiation of the retry branch of `C7_retry_behavior`:
a message that literally contains `timeout`, failing once then succeeding,
gives the successful fix after 2 attempts with one transient message. -/
theorem C7_witness :
    (jsIncludes "timeout" "timeout" = true ∧ 0 < 3) ∧
    getCurrentLocationCallback false [.failure "timeout", .success ⟨0, 0⟩] 0 =
      { location := some ⟨0, 0⟩, error := none, attempts := 2,
        shownErrors := [handleLocationErrorMessage false "timeout"] } :=
  ⟨⟨by decide, by decide⟩,
    C7_retry_behavior.2.2.1 "timeout" ⟨0, 0⟩ [] 0 (by decide) (by decide)⟩

/-- Claim C8: both geolocation failure handlers map code 1
(PERMISSION_DENIED) to the permission message, code 2
(POSITION_UNAVAILABLE) to the unavailability message, code 3 (TIMEOUT) to
the timeout message, and every other code to their generic message. -/
theorem C8_error_code_mapping :
    getCurrentLocationErrorMessage 1 = "Location permission denied" ∧
    getCurrentLocationErrorMessage 2 = "Location information is unavailable" ∧
    getCurrentLocationErrorMessage 3 = "Location request timed out" ∧
    (∀ c : ℕ, c ≠ 1 → c ≠ 2 → c ≠ 3 →
      getCurrentLocationErrorMessage c = "Failed to get location") ∧
    requestLocationErrorMessage 1 = "Location permission denied" ∧
    requestLocationErrorMessage 2 = "Location information is unavailable" ∧
    requestLocationErrorMessage 3 = "Location request timed out" ∧
    (∀ c : ℕ, c ≠ 1 → c ≠ 2 → c ≠ 3 →
      requestLocationErrorMessage c = "Unable to retrieve your location") := by
  refine ⟨rfl, rfl, rfl, ?_, rfl, rfl, rfl, ?_⟩ <;>
    · intro c h1 h2 h3
      simp [getCurrentLocationErrorMessage, requestLocationErrorMessage, h1, h2, h3]

/-- Concrete instantiation of the default branches of
`C8_error_code_mapping` at code 0 (no Geolocation API constant). -/
theorem C8_witness :
    ((0 : ℕ) ≠ 1 ∧ (0 : ℕ) ≠ 2 ∧ (0 : ℕ) ≠ 3) ∧
    getCurrentLocationErrorMessage 0 = "Failed to get location" ∧
    requestLocationErrorMessage 0 = "Unable to retrieve your location" :=
  ⟨⟨by decide, by decide, by decide⟩,
    C8_error_code_mapping.2.2.2.1 0 (by decide) (by decide) (by decide),
    C8_error_code_mapping.2.2.2.2.2.2.2 0 (by decide) (by decide) (by decide)⟩

/-- Claim C10: with the geolocation API present, `getUserLocation` always
resolves; on any geolocation error it resolves with the random fallback
`(r1 * 180 - 90, r2 * 360 - 180)`, which lies in `[-90, 90) × [-180, 180)`
for samples in `[0, 1)`; `handleShareMood` then inserts the mood at that
fabricated location and shows the exact same success toast as for a real
position. -/
theorem C10_random_fallback :
    (∀ (out : GeoOutcome) (r1 r2 : ℚ), ∃ c, getUserLocation true out r1 r2 = .ok c) ∧
    (∀ r1 r2 : ℚ, 0 ≤ r1 → r1 < 1 → 0 ≤ r2 → r2 < 1 →
      getUserLocation true .geoError r1 r2 =
        .ok { latitude := r1 * 180 - 90, longitude := r2 * 360 - 180 } ∧
      -90 ≤ r1 * 180 - 90 ∧ r1 * 180 - 90 < 90 ∧
      -180 ≤ r2 * 360 - 180 ∧ r2 * 360 - 180 < 180) ∧
    (∀ (mood : MoodOption) (noteState : String) (r1 r2 : ℚ),
      handleShareMood (some mood) noteState true .geoError r1 r2 =
        some ({ mood_emoji := mood.emoji, mood_color := mood.color,
                mood_name := mood.name, latitude := r1 * 180 - 90,
                longitude := r2 * 360 - 180, note := persistedNote noteState },
              "Mood shared! ✨")) ∧
    (∀ (mood : MoodOption) (noteState : String) (lat lng r1 r2 : ℚ),
      (handleShareMood (some mood) noteState true (.position lat lng) r1 r2).map
          (fun p => p.2) = some "Mood shared! ✨") := by
  refine ⟨?_, ?_, fun mood noteState r1 r2 => rfl, fun mood noteState lat lng r1 r2 => rfl⟩
  · intro out r1 r2
    cases out with
    | position lat lng => exact ⟨_, rfl⟩
    | geoError => exact ⟨_, rfl⟩
  · intro r1 r2 h1 h2 h3 h4
    refine ⟨rfl, by linarith, by linarith, by linarith, by linarith⟩

/-- Concrete instantiation of the fallback-range part of
`C10_random_fallback` at the samples `r1 = r2 = 0`. -/
theorem C10_witness :
    ((0 : ℚ) ≤ 0 ∧ (0 : ℚ) < 1 ∧ (0 : ℚ) ≤ 0 ∧ (0 : ℚ) < 1) ∧
    (getUserLocation true .geoError 0 0 =
        .ok { latitude := (0 : ℚ) * 180 - 90, longitude := (0 : ℚ) * 360 - 180 } ∧
      -90 ≤ (0 : ℚ) * 180 - 90 ∧ (0 : ℚ) * 180 - 90 < 90 ∧
      -180 ≤ (0 : ℚ) * 360 - 180 ∧ (0 : ℚ) * 360 - 180 < 180) :=
  ⟨⟨le_refl 0, zero_lt_one, le_refl 0, zero_lt_one⟩,
    C10_random_fallback.2.1 0 0 (le_refl 0) zero_lt_one (le_refl 0) zero_lt_one⟩

/-! ## Time-window queries (loadMoods, loadStats)

Both data fetches ask the store for rows with
`created_at >= new Date(Date.now() - 48 * 60 * 60 * 1000).toISOString()`;
`loadMoods` additionally orders by `created_at` descending and limits to
2000 rows.  Timestamps are modelled as integer milliseconds; the
`gte`, `order` and `limit` operators carry the standard
filter-sort-truncate semantics of the select-with-time-range-filter
external interface. -/

/-- A stored `moods` row as seen by the time filter. -/
structure DbMoodRow where
  id : String
  created_at : ℤ
deriving DecidableEq

/-- `48 * 60 * 60 * 1000` milliseconds. -/
def fortyEightHoursMs : ℤ := 48 * 60 * 60 * 1000

/--
```
supabase.from("moods").select("*").gte("created_at", last48Hours)
  .order("created_at", { ascending: false }).limit(2000)
```
-/
def loadMoodsQuery (table : List DbMoodRow) (now : ℤ) : List DbMoodRow :=
  (sortByDesc (fun r => r.created_at)
    (table.filter fun r => decide (now - fortyEightHoursMs ≤ r.created_at))).take 2000

/--
```
supabase.from("moods").select("mood_name, mood_color, mood_emoji, created_at")
  .gte("created_at", last48Hours).order("created_at", { ascending: false })
```
-/
def statsDistributionQuery (table : List DbMoodRow) (now : ℤ) : List DbMoodRow :=
  sortByDesc (fun r => r.created_at)
    (table.filter fun r => decide (now - fortyEightHoursMs ≤ r.created_at))

/--
```
supabase.from("moods").select("created_at, mood_name, mood_emoji")
  .gte("created_at", new Date(Date.now() - 48 * 60 * 60 * 1000).toISOString())
```
-/
def statsHourlyQuery (table : List DbMoodRow) (now : ℤ) : List DbMoodRow :=
  table.filter fun r => decide (now - fortyEightHoursMs ≤ r.created_at)

/-- Claim C9: every row either fetch returns is at most 48 hours old;
`loadMoods` returns at most 2000 rows in descending `created_at` order;
a row older than 48 hours is excluded from every fetch although the table
(which no code path deletes from) still contains it. -/
theorem C9_window_queries (table : List DbMoodRow) (now : ℤ) :
    (∀ r ∈ loadMoodsQuery table now, now - fortyEightHoursMs ≤ r.created_at) ∧
    (loadMoodsQuery table now).length ≤ 2000 ∧
    (loadMoodsQuery table now).Pairwise (fun a b => b.created_at ≤ a.created_at) ∧
    (∀ r ∈ statsDistributionQuery table now, now - fortyEightHoursMs ≤ r.created_at) ∧
    (∀ r ∈ statsHourlyQuery table now, now - fortyEightHoursMs ≤ r.created_at) ∧
    (∀ r ∈ table, r.created_at < now - fortyEightHoursMs →
      r ∉ loadMoodsQuery table now ∧
      r ∉ statsDistributionQuery table now ∧
      r ∉ statsHourlyQuery table now) := by
  have hfilter : ∀ r ∈ table.filter
      (fun r => decide (now - fortyEightHoursMs ≤ r.created_at)),
      now - fortyEightHoursMs ≤ r.created_at := by
    intro r hr
    have := (List.mem_filter.mp hr).2
    exact of_decide_eq_true this
  have hdistr : ∀ r ∈ statsDistributionQuery table now,
      now - fortyEightHoursMs ≤ r.created_at := by
    intro r hr
    rw [statsDistributionQuery, (sortByDesc_perm _ _).mem_iff] at hr
    exact hfilter r hr
  refine ⟨?_, ?_, ?_, hdistr, hfilter, ?_⟩
  · intro r hr
    have hr2 : r ∈ statsDistributionQuery table now :=
      List.take_subset 2000 _ hr
    exact hdistr r hr2
  · exact List.length_take_le 2000 _
  · exact List.Pairwise.sublist (List.take_sublist 2000 _)
      (sortByDesc_pairwise (fun r : DbMoodRow => r.created_at) _)
  · intro r _ hold
    have hnotf : r ∉ table.filter
        (fun r => decide (now - fortyEightHoursMs ≤ r.created_at)) := by
      intro hmem
      exact absurd (hfilter r hmem) (by omega)
    refine ⟨?_, ?_, hnotf⟩
    · intro hmem
      exact hnotf (by
        have : r ∈ statsDistributionQuery table now := List.take_subset 2000 _ hmem
        rw [statsDistributionQuery, (sortByDesc_perm _ _).mem_iff] at this
        exact this)
    · intro hmem
      rw [statsDistributionQuery, (sortByDesc_perm _ _).mem_iff] at hmem
      exact hnotf hmem

/-- Concrete instantiation of `C9_window_queries`: with `now = 10^9`, a row
at timestamp 0 is older than the 48-hour cutoff and excluded from all three
fetches. -/
theorem C9_witness :
    (({ id := "old", created_at := 0 } : DbMoodRow) ∈
        ([{ id := "old", created_at := 0 }] : List DbMoodRow) ∧
      ({ id := "old", created_at := 0 } : DbMoodRow).created_at <
        1000000000 - fortyEightHoursMs) ∧
    (({ id := "old", created_at := 0 } : DbMoodRow) ∉
        loadMoodsQuery [{ id := "old", created_at := 0 }] 1000000000 ∧
      ({ id := "old", created_at := 0 } : DbMoodRow) ∉
        statsDistributionQuery [{ id := "old", created_at := 0 }] 1000000000 ∧
      ({ id := "old", created_at := 0 } : DbMoodRow) ∉
        statsHourlyQuery [{ id := "old", created_at := 0 }] 1000000000) :=
  ⟨⟨List.mem_singleton.mpr rfl, by decide⟩,
    (C9_window_queries [{ id := "old", created_at := 0 }] 1000000000).2.2.2.2.2
      _ (List.mem_singleton.mpr rfl) (by decide)⟩
